import Mathlib

/-!
Verification of the per-request authentication, identity-extraction and
rate-limiting pipeline of the outlook-oauth-remote-mcp server.

The embedding translates, from the TypeScript sources:
- src/auth/middleware.ts   (bearerAuthMiddleware)
- src/server.ts            (the /mcp route: bearerAuthMiddleware then handleMcpRequest)
- the rate-limit module    (checkRateLimit, recordRequest, rateLimitMiddleware)
- the token-parser module  (parseToken)
- src/config.ts            (the configuration fields those modules consume)

Node built-ins (Buffer base64url decoding plus JSON.parse) are external to the
repository; they are modelled by an abstract decoding function
`dec : String -> Option Payload` over which all theorems quantify.
JavaScript truthiness of claim values is modelled explicitly: an absent claim
or the empty string (resp. the number zero) is falsy.
-/

set_option autoImplicit false

/-- Decidable equality for Except results, so that concrete runs of the
embedded fallible functions can be checked by the kernel. -/
instance {ε α : Type} [DecidableEq ε] [DecidableEq α] :
    DecidableEq (Except ε α) := fun
  | .error a, .error b =>
    if h : a = b then .isTrue (by rw [h]) else .isFalse (by simp [h])
  | .error _, .ok _ => .isFalse (by simp)
  | .ok _, .error _ => .isFalse (by simp)
  | .ok a, .ok b =>
    if h : a = b then .isTrue (by rw [h]) else .isFalse (by simp [h])

namespace OutlookMcp

/-- Configuration fields consumed by the token parser and rate limiter
(read through getConfig in the sources). -/
structure Config where
  allowedTenants : List String
  rateLimitRequests : Int
  rateLimitWindowMs : Int
deriving Repr, DecidableEq

/-- A decoded JWT payload: each claim is either absent or a value.
Mirrors the fields the sources read from the parsed JSON object. -/
structure Payload where
  iss : Option String := none
  aud : Option String := none
  exp : Option Int := none
  tid : Option String := none
  oid : Option String := none
  sub : Option String := none
  preferred_username : Option String := none
  email : Option String := none
  upn : Option String := none
deriving Repr, DecidableEq

/-! ### JavaScript string primitives

The JS string operations used by the sources (split, startsWith, substring,
trim, emptiness) are modelled at the character level so that they are fully
computable. All inputs of interest are ASCII, where character counting agrees
with the UTF-16 code-unit counting of JS substring. -/

/-- JS String.prototype.split on a single separator character, on char lists:
splitting the empty list yields one empty field, and every separator
occurrence starts a new field. -/
def jsSplitChars (sep : Char) : List Char → List (List Char)
  | [] => [[]]
  | c :: cs =>
    if c = sep then [] :: jsSplitChars sep cs
    else
      match jsSplitChars sep cs with
      | [] => [[c]]
      | field :: rest => (c :: field) :: rest

/-- JS token.split(sep) for a one-character separator. -/
def jsSplit (s : String) (sep : Char) : List String :=
  (jsSplitChars sep s.toList).map String.mk

/-- JS s.startsWith(p). -/
def jsStartsWith (s p : String) : Bool :=
  decide (s.toList.take p.toList.length = p.toList)

/-- JS s.substring(n) (drop the first n characters). -/
def jsDrop (s : String) (n : Nat) : String :=
  String.mk (s.toList.drop n)

/-- JS s.trim(): strip whitespace from both ends. -/
def jsTrim (s : String) : String :=
  String.mk (((s.toList.dropWhile Char.isWhitespace).reverse.dropWhile
    Char.isWhitespace).reverse)

/-- JS falsiness of a string: only the empty string is falsy. -/
def jsIsEmpty (s : String) : Bool :=
  s.toList.isEmpty

/-- JavaScript truthiness of an optional string claim:
absent (undefined) and the empty string are falsy. -/
def truthy : Option String → Bool
  | none => false
  | some s => !jsIsEmpty s

/-- JavaScript truthiness of an optional numeric claim:
absent (undefined) and zero are falsy. -/
def truthyInt : Option Int → Bool
  | none => false
  | some n => decide (n ≠ 0)

/-- The JavaScript `a || b` operator on optional string values:
returns `a` when truthy, otherwise `b`. -/
def jsOr (a b : Option String) : Option String :=
  if truthy a then a else b

/-- Error codes thrown as TokenValidationError by parseToken. -/
inductive TokenErrorCode where
  | invalid_token
  | expired_token
  | tenant_not_allowed
deriving Repr, DecidableEq

/-- The ParsedToken record returned by parseToken on success. -/
structure ParsedToken where
  oid : String
  sub : String
  tid : String
  aud : String
  iss : String
  exp : Option Int
  preferredUsername : Option String
  email : Option String
  upn : Option String
deriving Repr, DecidableEq

/-- Embedding of parseToken (token-parser module).
`dec` models base64url decoding plus JSON.parse of the middle segment;
`now` is `Math.floor(Date.now() / 1000)` in seconds.
The three-way match on `jsSplit token '.'` mirrors the source's
`parts.length !== 3` check: the first branch is exactly the length-3 case. -/
def parseToken (dec : String → Option Payload) (config : Config) (now : Int)
    (token : String) : Except TokenErrorCode ParsedToken :=
  match jsSplit token '.' with
  | [_, payloadSeg, _] =>
    match dec payloadSeg with
    | none => .error .invalid_token
    | some payload =>
      if !truthy payload.iss || !truthy payload.aud then
        .error .invalid_token
      else if !truthy payload.oid && !truthy payload.sub then
        .error .invalid_token
      else if !truthy payload.tid then
        .error .invalid_token
      else if truthyInt payload.exp && decide (payload.exp.getD 0 < now - 60) then
        .error .expired_token
      else if decide (config.allowedTenants.length > 0)
              && !(config.allowedTenants.contains (payload.tid.getD "")) then
        .error .tenant_not_allowed
      else
        .ok { oid := if truthy payload.oid then payload.oid.getD "" else payload.sub.getD ""
            , sub := if truthy payload.sub then payload.sub.getD "" else payload.oid.getD ""
            , tid := payload.tid.getD ""
            , aud := payload.aud.getD ""
            , iss := payload.iss.getD ""
            , exp := payload.exp
            , preferredUsername := payload.preferred_username
            , email := payload.email
            , upn := payload.upn }
  | _ => .error .invalid_token

/-- The structural and claim-presence conditions under which parseToken does
not fail invalid_token: exactly three dot-separated segments (emptiness of the
outer segments is not checked by the source), a decodable middle segment,
truthy iss and aud, at least one truthy of oid and sub, and a truthy tid. -/
def structOk (dec : String → Option Payload) (token : String) : Bool :=
  match jsSplit token '.' with
  | [_, payloadSeg, _] =>
    match dec payloadSeg with
    | none => false
    | some payload =>
      truthy payload.iss && truthy payload.aud
        && (truthy payload.oid || truthy payload.sub)
        && truthy payload.tid
  | _ => false

/-! ### Rate limiter (checkRateLimit / recordRequest / rateLimitMiddleware) -/

/-- A rate-limit entry: the recorded request timestamps (epoch millis) and the
time of last access. -/
structure RateLimitEntry where
  requests : List Int
  lastAccess : Int
deriving Repr, DecidableEq

/-- The in-memory store: an insertion-ordered association list modelling the
JavaScript Map from user identifier to entry. -/
abbrev RateStore := List (String × RateLimitEntry)

/-- Map.get. -/
def storeGet (store : RateStore) (key : String) : Option RateLimitEntry :=
  match store with
  | [] => none
  | (k, e) :: rest => if k = key then some e else storeGet rest key

/-- Map.set: replaces an existing binding in place, appends a new one. -/
def storeSet (store : RateStore) (key : String) (e : RateLimitEntry) : RateStore :=
  match store with
  | [] => [(key, e)]
  | (k, e') :: rest =>
    if k = key then (key, e) :: rest else (k, e') :: storeSet rest key e

/-- Math.min over a nonempty list of timestamps (the empty case is unreachable
in the source, which guards on the list being nonempty). -/
def listMin : List Int → Int
  | [] => 0
  | [x] => x
  | x :: y :: xs => min x (listMin (y :: xs))

/-- Result record of checkRateLimit. -/
structure RateCheckResult where
  isLimited : Bool
  remaining : Int
  resetMs : Int
deriving Repr, DecidableEq

/-- Embedding of checkRateLimit: gets or lazily creates the entry, prunes
timestamps at or before `now - windowMs`, stamps lastAccess, and reports
isLimited, remaining and resetMs. Returns the result together with the
updated store (the source mutates the shared Map in place). -/
def checkRateLimit (config : Config) (now : Int) (userId : String)
    (store : RateStore) : RateCheckResult × RateStore :=
  let windowStart := now - config.rateLimitWindowMs
  let entry := (storeGet store userId).getD ⟨[], now⟩
  let kept := entry.requests.filter (fun ts => decide (ts > windowStart))
  let store' := storeSet store userId ⟨kept, now⟩
  let remaining := max 0 (config.rateLimitRequests - (kept.length : Int))
  let isLimited := decide ((kept.length : Int) ≥ config.rateLimitRequests)
  let resetMs :=
    if kept.isEmpty then config.rateLimitWindowMs
    else max 0 (listMin kept + config.rateLimitWindowMs - now)
  (⟨isLimited, remaining, resetMs⟩, store')

/-- Embedding of recordRequest: appends `now` to the entry's timestamps
(creating the entry when absent) and stamps lastAccess. -/
def recordRequest (now : Int) (userId : String) (store : RateStore) : RateStore :=
  let entry := (storeGet store userId).getD ⟨[], now⟩
  storeSet store userId ⟨entry.requests ++ [now], now⟩

/-! ### Authentication gate and the /mcp route -/

/-- A terminal HTTP error response: status plus the JSON error envelope. -/
structure HttpErrorBody where
  status : Nat
  error : String
  error_description : String
deriving Repr, DecidableEq

/-- The auth record the middleware stores on the request (req.auth). -/
structure AuthInfo where
  token : String
  userId : Option String
deriving Repr, DecidableEq

/-- Embedding of bearerAuthMiddleware (src/auth/middleware.ts): validates the
Authorization header, checks the three-segment structure, and extracts a
best-effort userId from the payload (decode failure is non-fatal).
A returned error means the middleware responded and did not call next. -/
def bearerAuthMiddleware (dec : String → Option Payload)
    (authHeader : Option String) : Except HttpErrorBody AuthInfo :=
  match authHeader with
  | none => .error ⟨401, "invalid_request", "Missing Authorization header"⟩
  | some h =>
    if !jsStartsWith h "Bearer " then
      .error ⟨401, "invalid_request", "Authorization header must use Bearer scheme"⟩
    else
      let token := jsTrim (jsDrop h 7)
      if jsIsEmpty token then
        .error ⟨401, "invalid_token", "Bearer token is empty"⟩
      else
        match jsSplit token '.' with
        | [_, payloadSeg, _] =>
          let userId :=
            match dec payloadSeg with
            | some payload =>
              jsOr payload.preferred_username
                (jsOr payload.upn (jsOr payload.email payload.sub))
            | none => none
          .ok ⟨token, userId⟩
        | _ => .error ⟨401, "invalid_token", "Token format is invalid"⟩

/-- The per-request context installed via runWithContext. -/
structure RequestContext where
  accessToken : String
  userId : Option String
deriving Repr, DecidableEq

/-- Observable outcome of one request through the /mcp route: the terminal
error response (if any), every context installation performed, every
downstream dispatch performed with its context, and the resulting
rate-limit store. -/
structure McpOutcome where
  response : Option HttpErrorBody
  contextInstalls : List RequestContext
  dispatched : List RequestContext
  store : RateStore
deriving Repr, DecidableEq

/-- Embedding of handleMcpRequest (src/server.ts): rejects when req.auth
carries no token, otherwise installs the RequestContext via runWithContext
and invokes downstream dispatch inside it. -/
def handleMcpRequest (auth : Option AuthInfo) (store : RateStore) : McpOutcome :=
  match auth with
  | none => ⟨some ⟨401, "invalid_token", "No valid access token provided"⟩, [], [], store⟩
  | some a =>
    if jsIsEmpty a.token then
      ⟨some ⟨401, "invalid_token", "No valid access token provided"⟩, [], [], store⟩
    else
      let ctx : RequestContext := ⟨a.token, a.userId⟩
      ⟨none, [ctx], [ctx], store⟩

/-- Embedding of the /mcp route wiring in src/server.ts:
app.get and app.post mount exactly bearerAuthMiddleware then handleMcpRequest.
A middleware rejection short-circuits (next is not called); the rate-limit
store is threaded through untouched because no rate-limit middleware is
mounted on this route. -/
def mcpPipeline (dec : String → Option Payload) (authHeader : Option String)
    (store : RateStore) : McpOutcome :=
  match bearerAuthMiddleware dec authHeader with
  | .error resp => ⟨some resp, [], [], store⟩
  | .ok auth => handleMcpRequest (some auth) store

/-- Outcome of the rate-limit middleware: updated store, response (when
limited) and whether next was called. -/
structure RateLimitDecision where
  store : RateStore
  response : Option HttpErrorBody
  nextCalled : Bool
deriving Repr, DecidableEq

/-- Embedding of rateLimitMiddleware (rate-limit module): skips when the
request carries no rateLimitUserId, otherwise checks, rejects 429 when
limited, and records the request before calling next when not limited. -/
def rateLimitMiddleware (config : Config) (now : Int)
    (rateLimitUserId : Option String) (store : RateStore) : RateLimitDecision :=
  match rateLimitUserId with
  | none => ⟨store, none, true⟩
  | some userId =>
    let r := checkRateLimit config now userId store
    if r.1.isLimited then
      ⟨r.2, some ⟨429, "rate_limit_exceeded", "Too many requests. Please try again later."⟩, false⟩
    else
      ⟨recordRequest now userId r.2, none, true⟩

end OutlookMcp

namespace OutlookMcp

/-! ### Concrete fixtures

Decoders are finite tables standing for concrete middle segments: a real
base64url+JSON decoder maps the segment string "p" to the given payload and
everything else to a decode failure. -/

/-- A decoder on which every segment fails to decode (non-JSON payloads). -/
def decNone : String → Option Payload := fun _ => none

/-- Payload with valid iss, aud, tid, oid and no expiry. -/
def payloadP : Payload :=
  { iss := some "X", aud := some "Y", tid := some "t1", oid := some "u1" }

/-- Decoder mapping segment "p" to payloadP. -/
def decP : String → Option Payload := fun s => if s = "p" then some payloadP else none

/-- payloadP with exp = 880 (120 seconds before the fixture clock of 1000). -/
def payloadE : Payload :=
  { iss := some "X", aud := some "Y", tid := some "t1", oid := some "u1", exp := some 880 }

/-- Decoder mapping segment "p" to payloadE. -/
def decE : String → Option Payload := fun s => if s = "p" then some payloadE else none

/-- payloadP with exp = 0: a present but falsy expiry claim. -/
def payloadZ : Payload :=
  { iss := some "X", aud := some "Y", tid := some "t1", oid := some "u1", exp := some 0 }

/-- Decoder mapping segment "p" to payloadZ. -/
def decZ : String → Option Payload := fun s => if s = "p" then some payloadZ else none

/-- A rate-limit store already holding an entry for another user. -/
def store0 : RateStore := [("alice", ⟨[5], 5⟩)]

/-! ### Store helper lemmas -/

/-- Reading back the key just written into the store. -/
theorem storeGet_storeSet_same (s : RateStore) (k : String) (e : RateLimitEntry) :
    storeGet (storeSet s k e) k = some e := by
  induction s with
  | nil => simp [storeGet, storeSet]
  | cons head tail ih =>
    obtain ⟨k', e'⟩ := head
    by_cases h : k' = k <;> simp [storeGet, storeSet, h, ih]

/-- Writing the same key twice keeps only the second entry. -/
theorem storeSet_storeSet (s : RateStore) (k : String) (e₁ e₂ : RateLimitEntry) :
    storeSet (storeSet s k e₁) k e₂ = storeSet s k e₂ := by
  induction s with
  | nil => simp [storeSet]
  | cons head tail ih =>
    obtain ⟨k', e'⟩ := head
    by_cases h : k' = k <;> simp [storeSet, h, ih]

/-! ### Claim theorems -/

/-- C1 (counterexample): the claim says every request whose header passes the
scheme and non-emptiness checks but whose token the Token Parser rejects is
terminally 401-rejected before context installation. At the concrete request
with header "Bearer a.b.c" and a payload segment that does not decode, the
Token Parser fails InvalidToken, yet the /mcp pipeline responds with no error
and installs the request context: the gate never invokes the Token Parser. -/
theorem gate_admits_undecodable_token :
    parseToken decNone ⟨[], 30, 60000⟩ 1000 "a.b.c" = .error .invalid_token ∧
    (mcpPipeline decNone (some "Bearer a.b.c") []).response = none ∧
    (mcpPipeline decNone (some "Bearer a.b.c") []).contextInstalls = [⟨"a.b.c", none⟩] := by
  decide

/-- C1 (amended): for every request whose header passes the scheme and
non-emptiness checks, the gate performs only the structural three-segment
check itself: a token with segment count ≠ 3 is terminally rejected 401 with
the MalformedToken-class body, and every token with exactly 3 segments is
admitted and reaches context installation with the raw token, regardless of
payload decodability, expiry, or tenant — the Token Parser is not consulted. -/
theorem gate_checks_structure_only (dec : String → Option Payload) (h : String)
    (store : RateStore)
    (hscheme : jsStartsWith h "Bearer " = true)
    (hne : jsIsEmpty (jsTrim (jsDrop h 7)) = false) :
    ((jsSplit (jsTrim (jsDrop h 7)) '.').length ≠ 3 →
      mcpPipeline dec (some h) store =
        ⟨some ⟨401, "invalid_token", "Token format is invalid"⟩, [], [], store⟩) ∧
    ((jsSplit (jsTrim (jsDrop h 7)) '.').length = 3 →
      ∃ u, mcpPipeline dec (some h) store =
        ⟨none, [⟨jsTrim (jsDrop h 7), u⟩], [⟨jsTrim (jsDrop h 7), u⟩], store⟩) := by
  unfold mcpPipeline bearerAuthMiddleware
  simp only [hscheme, hne, Bool.not_true, Bool.false_eq_true, if_false]
  rcases hl : jsSplit (jsTrim (jsDrop h 7)) '.' with _ | ⟨a, _ | ⟨b, _ | ⟨c, _ | ⟨d, tl⟩⟩⟩⟩
  case cons.cons.cons.nil =>
    refine ⟨by simp, fun _ => ⟨(match dec b with
      | some payload => jsOr payload.preferred_username
          (jsOr payload.upn (jsOr payload.email payload.sub))
      | none => none), ?_⟩⟩
    simp [handleMcpRequest, hne]
  all_goals simp_all [handleMcpRequest]

/-- C1 (witness): the amended gate theorem applied to the concrete header
"Bearer a.b.c" with an undecodable payload segment. -/
theorem gate_checks_structure_only_witness :
    ∃ u, mcpPipeline decNone (some "Bearer a.b.c") [] =
      ⟨none, [⟨"a.b.c", u⟩], [⟨"a.b.c", u⟩], []⟩ := by
  have h := (gate_checks_structure_only decNone "Bearer a.b.c" []
    (by decide) (by decide)).2 (by decide)
  exact h

/-- C2 (code-bug evaluation): a structurally valid authenticated request to
/mcp installs the context and dispatches downstream while leaving the
rate-limit store byte-for-byte unchanged — checkRateLimit and recordRequest
are never invoked because rateLimitMiddleware is not mounted on the route;
and even the middleware itself, given the absent rateLimitUserId field that
no auth middleware ever sets, skips straight to next without touching the
store. -/
theorem mcp_route_ignores_rate_limiter :
    mcpPipeline decP (some "Bearer h.p.s") store0 =
      ⟨none, [⟨"h.p.s", none⟩], [⟨"h.p.s", none⟩], store0⟩ ∧
    rateLimitMiddleware ⟨[], 30, 60000⟩ 6 none store0 = ⟨store0, none, true⟩ := by
  constructor <;> rfl

/-- C3 (counterexample): the claim says the first check-then-record cycle on
a fresh key with limit 3 reports remaining = 2. The code computes remaining
before recording, so the first check on a fresh key reports remaining = 3. -/
theorem fresh_key_first_check_reports_three :
    (checkRateLimit ⟨[], 3, 1000⟩ 10000 "u" []).1 = ⟨false, 3, 1000⟩ ∧
    ¬(checkRateLimit ⟨[], 3, 1000⟩ 10000 "u" []).1.remaining = 2 := by
  decide

/-- C3 (amended): for a fresh key with limit = 3 and windowMs = 1000, three
check-then-record cycles report isLimited = false with remaining 3, 2, 1; a
fourth check reports isLimited = true with remaining = 0; and a check after
time advances past the window from the recorded timestamps reports
isLimited = false again. -/
theorem rate_limit_window_cycles (t t' : Int) (key : String) (store : RateStore)
    (hkey : storeGet store key = none) (ht : t + 1000 < t') :
    let cfg : Config := ⟨[], 3, 1000⟩
    let c1 := checkRateLimit cfg t key store
    let s2 := recordRequest t key c1.2
    let c2 := checkRateLimit cfg t key s2
    let s4 := recordRequest t key c2.2
    let c3 := checkRateLimit cfg t key s4
    let s6 := recordRequest t key c3.2
    let c4 := checkRateLimit cfg t key s6
    let c5 := checkRateLimit cfg t' key c4.2
    (c1.1.isLimited = false ∧ c1.1.remaining = 3) ∧
    (c2.1.isLimited = false ∧ c2.1.remaining = 2) ∧
    (c3.1.isLimited = false ∧ c3.1.remaining = 1) ∧
    (c4.1.isLimited = true ∧ c4.1.remaining = 0) ∧
    c5.1.isLimited = false := by
  intro cfg c1 s2 c2 s4 c3 s6 c4 c5
  have hw : t - 1000 < t := by omega
  have hw' : ¬(t' - 1000 < t) := by omega
  have h1 : c1 = (⟨false, 3, 1000⟩, storeSet store key ⟨[], t⟩) := by
    simp [c1, cfg, checkRateLimit, hkey]
  have h2 : s2 = storeSet store key ⟨[t], t⟩ := by
    simp [s2, h1, recordRequest, storeGet_storeSet_same, storeSet_storeSet]
  have h3 : c2 = (⟨false, 2, 1000⟩, storeSet store key ⟨[t], t⟩) := by
    simp [c2, cfg, checkRateLimit, h2, storeGet_storeSet_same, storeSet_storeSet,
      hw, listMin]
  have h4 : s4 = storeSet store key ⟨[t, t], t⟩ := by
    simp [s4, h3, recordRequest, storeGet_storeSet_same, storeSet_storeSet]
  have h5 : c3 = (⟨false, 1, 1000⟩, storeSet store key ⟨[t, t], t⟩) := by
    simp [c3, cfg, checkRateLimit, h4, storeGet_storeSet_same, storeSet_storeSet,
      hw, listMin]
  have h6 : s6 = storeSet store key ⟨[t, t, t], t⟩ := by
    simp [s6, h5, recordRequest, storeGet_storeSet_same, storeSet_storeSet]
  have h7 : c4 = (⟨true, 0, 1000⟩, storeSet store key ⟨[t, t, t], t⟩) := by
    simp [c4, cfg, checkRateLimit, h6, storeGet_storeSet_same, storeSet_storeSet,
      hw, listMin]
  have h8 : c5.1.isLimited = false := by
    simp [c5, cfg, checkRateLimit, h7, storeGet_storeSet_same, storeSet_storeSet, hw']
  exact ⟨by simp [h1], by simp [h3], by simp [h5], by simp [h7], h8⟩

/-- C3 (witness): the cycle theorem applied at t = 10000, t' = 11001 on the
empty store. -/
theorem rate_limit_window_cycles_witness :
    (checkRateLimit ⟨[], 3, 1000⟩ 10000 "u" []).1.isLimited = false ∧
    (checkRateLimit ⟨[], 3, 1000⟩ 10000 "u" []).1.remaining = 3 := by
  have h := rate_limit_window_cycles 10000 11001 "u" [] rfl (by decide)
  simp only [] at h
  exact h.1

/-- C5 (counterexample): the claim requires exactly 3 NON-EMPTY segments for
success. The token ".p." has empty first and third segments, yet parseToken
succeeds: the source checks only the segment count, never segment
non-emptiness. -/
theorem parse_accepts_empty_outer_segments :
    parseToken decP ⟨[], 30, 60000⟩ 1000 ".p." =
      .ok ⟨"u1", "u1", "t1", "Y", "X", none, none, none, none⟩ ∧
    ((jsSplit ".p." '.').all (fun s => !jsIsEmpty s)) = false := by
  decide

/-- C5 (amended): parseToken fails InvalidToken exactly when the structural
conditions fail — exactly 3 dot-separated segments (emptiness of outer
segments not checked), decodable middle segment, truthy iss and aud, at least
one truthy of oid and sub, and a truthy tid; and every successful parse has
its oid field (the subject identifier) equal to the payload oid when truthy,
else the payload sub. -/
theorem parseToken_invalid_iff (dec : String → Option Payload) (cfg : Config)
    (now : Int) (token : String) :
    (parseToken dec cfg now token = .error .invalid_token ↔ structOk dec token = false) ∧
    (∀ a ps c payload r, jsSplit token '.' = [a, ps, c] → dec ps = some payload →
      parseToken dec cfg now token = .ok r →
      r.oid = (if truthy payload.oid then payload.oid.getD "" else payload.sub.getD "")) := by
  rcases hl : jsSplit token '.' with _ | ⟨a, _ | ⟨b, _ | ⟨c, _ | ⟨d, tl⟩⟩⟩⟩
  case nil =>
    exact ⟨by simp [parseToken, structOk, hl],
      fun a' ps' c' payload r h => by simp at h⟩
  case cons.nil =>
    exact ⟨by simp [parseToken, structOk, hl],
      fun a' ps' c' payload r h => by simp at h⟩
  case cons.cons.nil =>
    exact ⟨by simp [parseToken, structOk, hl],
      fun a' ps' c' payload r h => by simp at h⟩
  case cons.cons.cons.cons =>
    exact ⟨by simp [parseToken, structOk, hl],
      fun a' ps' c' payload r h => by simp at h⟩
  constructor
  · simp only [parseToken, structOk, hl]
    cases hd : dec b with
    | none => simp
    | some payload =>
      simp only []
      split_ifs with h1 h2 h3 h4 h5
      · simp only [Bool.not_eq_true', Bool.or_eq_true] at h1
        rcases h1 with h | h <;> simp [h]
      · simp only [Bool.not_eq_true', Bool.and_eq_true] at h2
        simp [h2.1, h2.2]
      · simp only [Bool.not_eq_true'] at h3
        simp [h3]
      · simp only [Bool.not_eq_true', Bool.or_eq_true, not_or, Bool.and_eq_true] at h1 h2 h3
        simp [h1.1, h1.2, h3, h2]
      · simp only [Bool.not_eq_true', Bool.or_eq_true, not_or, Bool.and_eq_true] at h1 h2 h3
        simp [h1.1, h1.2, h3, h2]
      · simp only [Bool.not_eq_true', Bool.or_eq_true, not_or, Bool.and_eq_true] at h1 h2 h3
        simp [h1.1, h1.2, h3, h2]
  · intro a' ps' c' payload r h hd' hr
    obtain ⟨rfl, rfl, rfl⟩ : a = a' ∧ b = ps' ∧ c = c' := by simpa using h
    simp only [parseToken, hl, hd'] at hr
    split_ifs at hr
    all_goals first
      | (cases Except.ok.inj hr; split_ifs <;> simp_all)
      | exact absurd hr (by simp)

/-- C5 (witness): the equivalence at the undecodable token "a.b.c", and the
subject-identifier equation at the successful parse of "a.p.c". -/
theorem parseToken_invalid_iff_witness :
    (parseToken decNone ⟨[], 30, 60000⟩ 1000 "a.b.c" = .error .invalid_token ↔
      structOk decNone "a.b.c" = false) ∧
    (⟨"u1", "u1", "t1", "Y", "X", none, none, none, none⟩ : ParsedToken).oid =
      (if truthy payloadP.oid then payloadP.oid.getD "" else payloadP.sub.getD "") :=
  ⟨(parseToken_invalid_iff decNone ⟨[], 30, 60000⟩ 1000 "a.b.c").1,
   (parseToken_invalid_iff decP ⟨[], 30, 60000⟩ 1000 "a.p.c").2 "a" "p" "c" payloadP
     ⟨"u1", "u1", "t1", "Y", "X", none, none, none, none⟩
     (by decide) (by decide) (by decide)⟩

/-- C6 (counterexample): the claim says a payload carrying an exp claim is
rejected ExpiredToken whenever exp < now - 60. With exp = 0 and now = 1000,
exp is 940 seconds past the tolerance, yet parseToken succeeds: the source
guards the expiry check with JS truthiness, which skips any falsy exp. -/
theorem claimed_expiry_rule_fails_at_exp_zero :
    payloadZ.exp = some 0 ∧ ((0 : Int) < 1000 - 60) ∧
    parseToken decZ ⟨[], 30, 60000⟩ 1000 "a.p.c" ≠ .error .expired_token ∧
    (parseToken decZ ⟨[], 30, 60000⟩ 1000 "a.p.c").isOk = true := by
  decide

/-- C6 (amended): for every token passing the structural checks whose decoded
payload carries a truthy (nonzero) exp claim, parseToken fails ExpiredToken
exactly when exp < now - 60; in particular exp = now - 120 fails while
exp = now - 30 is inside the 60-second tolerance and succeeds. And for every
token whose decoded payload has a falsy exp — absent, or a value such as 0 —
parseToken never fails ExpiredToken, for every configuration and clock,
whatever the other checks decide. -/
theorem parseToken_expired_iff (dec : String → Option Payload) (cfg : Config)
    (now : Int) (token a ps c : String) (payload : Payload)
    (hl : jsSplit token '.' = [a, ps, c]) (hd : dec ps = some payload) :
    (structOk dec token = true → ∀ e, payload.exp = some e → e ≠ 0 →
      (parseToken dec cfg now token = .error .expired_token ↔ e < now - 60)) ∧
    (truthyInt payload.exp = false →
      parseToken dec cfg now token ≠ .error .expired_token) := by
  constructor
  · intro hs e he hne
    simp only [structOk, hl, hd] at hs
    simp only [Bool.and_eq_true, Bool.or_eq_true] at hs
    simp only [parseToken, hl, hd, he]
    have hti : truthyInt (some e) = true := by simp [truthyInt, hne]
    split_ifs with h1 h2 h3 h4 h5 <;> simp_all
  · intro hf
    simp only [parseToken, hl, hd]
    split_ifs with h1 h2 h3 h4 h5 <;> simp_all

/-- C6 (witness): the expiry equivalence at the token whose payload has
exp = 880 against the clock now = 1000 (120 seconds in the past), and the
never-expired conclusion at the token whose payload carries no exp claim. -/
theorem parseToken_expired_iff_witness :
    jsSplit "a.p.c" '.' = ["a", "p", "c"] ∧ decE "p" = some payloadE ∧
    structOk decE "a.p.c" = true ∧ payloadE.exp = some 880 ∧ ((880 : Int) ≠ 0) ∧
    (parseToken decE ⟨[], 30, 60000⟩ 1000 "a.p.c" = .error .expired_token ↔
      (880 : Int) < 1000 - 60) ∧
    payloadP.exp = none ∧ truthyInt payloadP.exp = false ∧
    parseToken decP ⟨[], 30, 60000⟩ 1000 "a.p.c" ≠ .error .expired_token :=
  ⟨by decide, by decide, by decide, by decide, by decide,
   (parseToken_expired_iff decE ⟨[], 30, 60000⟩ 1000 "a.p.c" "a" "p" "c" payloadE
     (by decide) (by decide)).1 (by decide) 880 (by decide) (by decide),
   by decide, by decide,
   (parseToken_expired_iff decP ⟨[], 30, 60000⟩ 1000 "a.p.c" "a" "p" "c" payloadP
     (by decide) (by decide)).2 (by decide)⟩

/-- C7: for every structurally valid, unexpired token, a non-empty configured
allow-list that does not contain the payload tid makes parseToken fail
TenantNotAllowed, and an empty allow-list makes the same token succeed
regardless of tid. -/
theorem parseToken_tenant (dec : String → Option Payload) (cfg : Config)
    (now : Int) (token a ps c : String) (payload : Payload)
    (hl : jsSplit token '.' = [a, ps, c]) (hd : dec ps = some payload)
    (hs : structOk dec token = true)
    (hexp : ¬(truthyInt payload.exp = true ∧ payload.exp.getD 0 < now - 60)) :
    (cfg.allowedTenants ≠ [] →
      cfg.allowedTenants.contains (payload.tid.getD "") = false →
      parseToken dec cfg now token = .error .tenant_not_allowed) ∧
    (cfg.allowedTenants = [] → (parseToken dec cfg now token).isOk = true) := by
  simp only [structOk, hl, hd] at hs
  simp only [Bool.and_eq_true, Bool.or_eq_true] at hs
  simp only [parseToken, hl, hd]
  constructor
  · intro hne hmem
    split_ifs with h1 h2 h3 h4 h5
    all_goals first
      | (simp_all; done)
      | exact absurd (by simpa using h4) hexp
      | rfl
      | (cases hl2 : cfg.allowedTenants with
          | nil => exact absurd hl2 hne
          | cons x xs => exact absurd (by simpa [hl2] using hmem) h5)
  · intro hnil
    split_ifs with h1 h2 h3 h4 h5
    all_goals first
      | (simp_all; done)
      | rfl
      | exact absurd (by simpa using h4) hexp
      | (simp [hnil] at h5; done)

/-- C7 (witness): the token with tid = t1 is rejected TenantNotAllowed under
the allow-list containing only t2, and accepted under the empty allow-list. -/
theorem parseToken_tenant_witness :
    parseToken decP ⟨["t2"], 30, 60000⟩ 1000 "a.p.c" = .error .tenant_not_allowed ∧
    (parseToken decP ⟨[], 30, 60000⟩ 1000 "a.p.c").isOk = true :=
  ⟨(parseToken_tenant decP ⟨["t2"], 30, 60000⟩ 1000 "a.p.c" "a" "p" "c" payloadP
      (by decide) (by decide) (by decide) (by decide)).1 (by decide) (by decide),
   (parseToken_tenant decP ⟨[], 30, 60000⟩ 1000 "a.p.c" "a" "p" "c" payloadP
      (by decide) (by decide) (by decide) (by decide)).2 rfl⟩

/-- C8: a request with no Authorization header is terminated with the 401
MissingHeader-class envelope, no context is ever installed, nothing is
dispatched, and the rate-limit store is returned unchanged — for every
decoder and every prior store state. -/
theorem missing_header_rejected_no_effects (dec : String → Option Payload)
    (store : RateStore) :
    mcpPipeline dec none store =
      ⟨some ⟨401, "invalid_request", "Missing Authorization header"⟩, [], [], store⟩ :=
  rfl

/-- C9: every checkRateLimit call rewrites the store at its key — creating the
entry when absent — to exactly the prior timestamps with everything at or
before now - windowMs filtered out (never appending) and lastAccess = now;
the written entry is readable back; and recordRequest is the only operation
that appends, writing the prior timestamps plus now with lastAccess = now. -/
theorem checkRateLimit_mutation_frame (config : Config) (now : Int) (key : String)
    (store : RateStore) :
    (checkRateLimit config now key store).2 =
      storeSet store key
        ⟨((storeGet store key).getD ⟨[], now⟩).requests.filter
            (fun ts => decide (ts > now - config.rateLimitWindowMs)), now⟩ ∧
    storeGet (checkRateLimit config now key store).2 key =
      some ⟨((storeGet store key).getD ⟨[], now⟩).requests.filter
            (fun ts => decide (ts > now - config.rateLimitWindowMs)), now⟩ ∧
    recordRequest now key store =
      storeSet store key ⟨((storeGet store key).getD ⟨[], now⟩).requests ++ [now], now⟩ :=
  ⟨rfl, by simp [checkRateLimit, storeGet_storeSet_same], rfl⟩

/-- C10: a decoded payload whose exp claim is present but equal to 0 is never
rejected as expired — the expiry branch is guarded by JS truthiness, which
skips falsy exp values — for every configuration and every clock value. -/
theorem parseToken_exp_zero (dec : String → Option Payload) (cfg : Config)
    (now : Int) (token a ps c : String) (payload : Payload)
    (hl : jsSplit token '.' = [a, ps, c]) (hd : dec ps = some payload)
    (he : payload.exp = some 0) :
    parseToken dec cfg now token ≠ .error .expired_token := by
  simp only [parseToken, hl, hd, he]
  have hti : truthyInt (some (0 : Int)) = false := by simp [truthyInt]
  split_ifs with h1 h2 h3 h4 h5 <;> simp_all

/-- C10 (witness): the exp = 0 token is not rejected as expired at the
concrete clock now = 1000. -/
theorem parseToken_exp_zero_witness :
    parseToken decZ ⟨[], 30, 60000⟩ 1000 "a.p.c" ≠ .error .expired_token :=
  parseToken_exp_zero decZ ⟨[], 30, 60000⟩ 1000 "a.p.c" "a" "p" "c" payloadZ
    (by decide) (by decide) (by decide)

end OutlookMcp
